import Mathlib

/-!
Verification development for the ddg-web-search package.

The TypeScript sources are shallowly embedded: pure logic is translated into
executable Lean definitions, asynchronous suspension points are made explicit
(time stamps and wait durations are passed as arguments), and third-party
collaborators (the WHATWG URL parser, the cheerio HTML parser, the turndown
HTML-to-Markdown converter, the puppeteer browser engine, the HTTP client
transport) are modelled as parameters or as pre-parsed data, matching the
package's own view of them as external dependencies.

JavaScript value semantics that the sources rely on (truthiness of strings,
the short-circuiting or-operator returning its second operand, String.trim,
String.includes, String.split, regular-expression replacement of newline
runs) are modelled explicitly below.
-/

/-- Characters treated as whitespace by the JavaScript String.trim method
(WhiteSpace and LineTerminator productions). -/
def isJsWhitespace (c : Char) : Bool :=
  c = ' ' || c = '\t' || c = '\n' || c = '\r' ||
  c = (Char.ofNat 11) || c = (Char.ofNat 12) ||
  c = (Char.ofNat 0xa0) || c = (Char.ofNat 0x1680) ||
  (0x2000 ≤ c.toNat && c.toNat ≤ 0x200a) ||
  c = (Char.ofNat 0x2028) || c = (Char.ofNat 0x2029) ||
  c = (Char.ofNat 0x202f) || c = (Char.ofNat 0x205f) ||
  c = (Char.ofNat 0x3000) || c = (Char.ofNat 0xfeff)

/-- JavaScript String.trim on a character list: drop leading and trailing
whitespace. -/
def jsTrimL (l : List Char) : List Char :=
  ((l.dropWhile isJsWhitespace).reverse.dropWhile isJsWhitespace).reverse

/-- JavaScript String.trim. -/
def jsTrimS (s : String) : String :=
  ⟨jsTrimL s.data⟩

/-- Truthiness of a JavaScript string-or-undefined value: undefined and the
empty string are falsy. -/
def jsTruthyO : Option String → Bool
  | none => false
  | some s => s != ""

/-- JavaScript a or-else b where a is a string and b is a
string-or-undefined value: the operator returns its second operand when the
first is falsy. -/
def jsOrSO (a : String) (b : Option String) : Option String :=
  if a != "" then some a else b

/-- JavaScript a or-else b where both operands are string-or-undefined
values. -/
def jsOrOO (a b : Option String) : Option String :=
  if jsTruthyO a then a else b

/-- JavaScript String.includes: substring containment. -/
def jsIncludes (s pat : String) : Bool :=
  s.data.tails.any (fun t => pat.data.isPrefixOf t)

/-- JavaScript String.startsWith. -/
def jsStartsWith (s pre : String) : Bool :=
  pre.data.isPrefixOf s.data

/-! ## RateLimiter (src/utils/RateLimiter.ts)

Times are JavaScript Date.now() values, modelled as integers and passed
explicitly: acquire takes the time at which the call runs and the time at
which control resumes after the setTimeout suspension (the latter is only
used on the over-limit path, where the source reads Date.now() again). -/

/-- State of a RateLimiter instance: requests granted in the current window,
the configured limit and interval (milliseconds), and the window start
timestamp (field lastRequestTime in the source). -/
structure RateLimiter where
  requests : Int
  limit : Int
  interval : Int
  lastRequestTime : Int
  deriving DecidableEq, Repr

/-- The RateLimiter constructor: rejects non-positive limit or interval,
otherwise starts with a zero request count and the current time. -/
def RateLimiter.create (limit interval now : Int) : Except String RateLimiter :=
  if limit ≤ 0 then .error "Rate limit must be greater than 0"
  else if interval ≤ 0 then .error "Rate limit interval must be greater than 0"
  else .ok { requests := 0, limit := limit, interval := interval, lastRequestTime := now }

/-- RateLimiter.acquire. Returns the wait duration requested from setTimeout
(none when the call resolves without suspending) together with the state
after the call. now is Date.now() at entry; nowAfter is Date.now() as
re-read after the setTimeout suspension on the over-limit path. -/
def RateLimiter.acquire (st : RateLimiter) (now nowAfter : Int) :
    Option Int × RateLimiter :=
  let timeSinceLastRequest := now - st.lastRequestTime
  -- Reset counter if interval has passed
  let st1 :=
    if st.interval ≤ timeSinceLastRequest then
      { st with requests := 0, lastRequestTime := now }
    else st
  -- If we're under the limit, allow the request
  if st1.requests < st1.limit then
    let st2 := { st1 with requests := st1.requests + 1 }
    let st3 := if st2.requests = 1 then { st2 with lastRequestTime := now } else st2
    (none, st3)
  else
    -- Over the limit: wait for the remainder of the interval, then reset
    let waitTime := st1.interval - timeSinceLastRequest
    (some waitTime, { st1 with requests := 1, lastRequestTime := nowAfter })

/-- RateLimiter.getStatus. -/
def RateLimiter.getStatus (st : RateLimiter) : Int × Int × Int :=
  (st.requests, st.limit, st.interval)

/-! ## Content extractor (src/fetcher/fetchAndScrape.ts)

The cheerio HTML parser and the turndown HTML-to-Markdown converter are
external collaborators. A parsed page is therefore modelled as a Doc record
holding the outcomes of the document queries that scrapeWebPage performs:
the text of the title element, the content attributes of the relevant meta
tags (none when the tag or attribute is missing), the datetime attribute of
the first time element, and the Markdown that turndown produces for the
selected content root (element removal, content-root probing and link
stripping happen inside the external DOM before this conversion). The logic
that scrapeWebPage itself contributes -- metadata precedence, whitespace
normalization, final text composition -- is embedded exactly. -/

/-- WebContent metadata fields (all optional strings). -/
structure Metadata where
  title : Option String
  description : Option String
  url : Option String
  author : Option String
  publishDate : Option String
  deriving DecidableEq, Repr

/-- WebContent: Markdown-rendered content plus optional metadata. -/
structure WebContent where
  content : String
  metadata : Option Metadata
  deriving DecidableEq, Repr

/-- Query outcomes of a cheerio-parsed document, as consumed by
scrapeWebPage. titleText is the text of the title element (empty when
absent); the Option String fields are content or datetime attribute values
of the corresponding meta and time queries (none when missing);
contentMarkdown is the turndown conversion of the selected content root's
inner HTML. -/
structure Doc where
  titleText : String
  ogTitle : Option String
  descriptionMeta : Option String
  ogDescription : Option String
  ogUrl : Option String
  authorMeta : Option String
  articleAuthor : Option String
  publishedTime : Option String
  timeDatetime : Option String
  contentMarkdown : String
  deriving DecidableEq, Repr

/-- Metadata extraction of scrapeWebPage (lines 57-70 of
fetchAndScrape.ts): each field is a JavaScript or-chain of a preferred and
a fallback query. -/
def extractMetadata (url : Option String) (d : Doc) : Metadata :=
  { title := jsOrSO d.titleText d.ogTitle
    description := jsOrOO d.descriptionMeta d.ogDescription
    url := jsOrOO url d.ogUrl
    author := jsOrOO d.authorMeta d.articleAuthor
    publishDate := jsOrOO d.publishedTime d.timeDatetime }

/-- JavaScript String.split on the newline character: splitting an empty
string yields one empty piece, and consecutive separators yield empty
pieces. -/
def splitNl : List Char → List (List Char)
  | [] => [[]]
  | c :: cs =>
    if c = '\n' then [] :: splitNl cs
    else
      match splitNl cs with
      | [] => [[c]]
      | p :: ps => (c :: p) :: ps

/-- Global replacement of every maximal run of three or more newlines by
exactly two, as performed by the regular-expression replace in
scrapeWebPage. The first argument counts the newlines just emitted: a
newline arriving while two have already been emitted in the current run is
dropped. -/
def collapseNlRuns : Nat → List Char → List Char
  | _, [] => []
  | k, c :: cs =>
    if c = '\n' then
      if 2 ≤ k then collapseNlRuns k cs
      else c :: collapseNlRuns (k + 1) cs
    else c :: collapseNlRuns 0 cs

/-- JavaScript Array.join with the double-newline separator. -/
def joinLinesNlNl : List (List Char) → List Char
  | [] => []
  | [p] => p
  | p :: q :: ps => p ++ '\n' :: '\n' :: joinLinesNlNl (q :: ps)

/-- Scanner deciding whether a character list contains three consecutive
newlines, the pattern the regular-expression replace of scrapeWebPage is
meant to eliminate. -/
def hasTripleNl : List Char → Bool
  | '\n' :: '\n' :: '\n' :: _ => true
  | _ :: rest => hasTripleNl rest
  | [] => false

/-- Whitespace normalization of scrapeWebPage (lines 106-113): split into
lines, trim each line, drop empty lines, join with double newlines, then
collapse remaining runs of three or more newlines to two. -/
def cleanMarkdownWhitespace (s : String) : String :=
  let lines := (splitNl s.data).map jsTrimL
  let lines := lines.filter (fun l => l ≠ [])
  ⟨collapseNlRuns 0 (joinLinesNlNl lines)⟩

/-- Final text composition of scrapeWebPage (lines 116-136): a header built
from the truthy metadata fields, followed by the Markdown body. -/
def metadataHeader (m : Metadata) : String :=
  (if jsTruthyO m.title then "# " ++ m.title.getD "" ++ "\n\n" else "") ++
  (if jsTruthyO m.url then "Source: " ++ m.url.getD "" ++ "\n\n" else "") ++
  (if jsTruthyO m.author then "Author: " ++ m.author.getD "" ++ "\n\n" else "") ++
  (if jsTruthyO m.publishDate then "Published: " ++ m.publishDate.getD "" ++ "\n\n" else "") ++
  (if jsTruthyO m.description then m.description.getD "" ++ "\n\n---\n\n" else "")

/-- scrapeWebPage on a parsed document: extract metadata when requested,
normalize whitespace when requested, and compose the final text. The url
argument is the optional caller-supplied page URL. -/
def scrapeWebPage (d : Doc) (url : Option String)
    (includeMetadata cleanWhitespace : Bool) : WebContent :=
  let metadata := if includeMetadata then some (extractMetadata url d) else none
  let markdown :=
    if cleanWhitespace then cleanMarkdownWhitespace d.contentMarkdown
    else d.contentMarkdown
  let finalText := (match metadata with
    | some m => metadataHeader m
    | none => "") ++ markdown
  { content := finalText, metadata := metadata }

/-! ## WebContentFetcher (src/fetcher/WebContentFetcher.ts)

The HTTP client is external: its outcome is a parameter, either a thrown
error message or a returned JavaScript value (the source declares the
response as a string but checks its runtime type, so the value is modelled
as a sum of the runtime possibilities). The WHATWG URL constructor used for
validation is likewise a parameter predicate. The fetch model additionally
counts rate-limiter acquisitions and HTTP requests, making the absence of
side effects on the validation paths provable. -/

/-- Runtime JavaScript values an HTTP response can take. -/
inductive JsVal where
  | vNull
  | vUndefined
  | vNum (n : Int)
  | vStr (s : String)
  deriving DecidableEq, Repr

/-- FetchResult: discriminated success/failure value. -/
structure FetchResult where
  success : Bool
  data : Option WebContent
  error : Option String
  deriving DecidableEq, Repr

/-- WebContentFetcher.parseContent: reject a falsy or non-string response,
otherwise scrape the raw HTML with the fetcher's fixed options
(cleanWhitespace, includeMetadata and includeLinks all true, no removal or
focus selectors) and an empty-string url argument. parse stands for the
external HTML parse and Markdown conversion of the response text. -/
def WebContentFetcher.parseContent (parse : String → Doc) (v : JsVal) :
    Except String WebContent :=
  match v with
  | .vStr s =>
    if s = "" then .error "No content received"
    else .ok (scrapeWebPage (parse s) (some "") true true)
  | _ => .error "No content received"

/-- Outcome of a WebContentFetcher.fetch call: the returned FetchResult
together with the number of rate-limiter acquisitions and HTTP client
invocations performed. -/
structure FetchOutcome where
  result : FetchResult
  acquireCalls : Nat
  httpCalls : Nat
  deriving DecidableEq, Repr

/-- WebContentFetcher.fetch: validate the URL (empty or whitespace-only,
then WHATWG parsing via the parses predicate) before acquiring the rate
limiter and invoking the HTTP client, whose outcome is the client
argument; client errors are wrapped, and the response is parsed by
parseContent. -/
def WebContentFetcher.fetch (parses : String → Bool)
    (client : Except String JsVal) (parse : String → Doc)
    (url : String) : FetchOutcome :=
  if url = "" || jsTrimS url = "" then
    ⟨⟨false, none, some "URL cannot be empty"⟩, 0, 0⟩
  else if ¬ parses url then
    ⟨⟨false, none, some "Invalid URL format"⟩, 0, 0⟩
  else
    match client with
    | .error msg =>
      ⟨⟨false, none, some ("Failed to fetch content: " ++ msg)⟩, 1, 1⟩
    | .ok v =>
      match WebContentFetcher.parseContent parse v with
      | .error msg =>
        ⟨⟨false, none, some ("Failed to fetch content: " ++ msg)⟩, 1, 1⟩
      | .ok wc => ⟨⟨true, some wc, none⟩, 1, 1⟩

/-! ## MCP fetch tool (src/mcp.ts, handleFetchTool)

Only the content formatting of the success path is modelled: the content
string of the successful FetchResult is truncated at a fixed budget with a
notice appended, and wrapped in the response text. -/

/-- Content truncation of handleFetchTool (lines 229-234): content longer
than 10000 characters is cut to its first 10000 characters and a
truncation notice is appended; shorter content passes through. -/
def truncateFetchContent (content : String) : String :=
  if 10000 < content.length then
    content.take 10000 ++
      "...\n\n[Content truncated - showing first 10000 characters]"
  else content

/-- Response text of handleFetchTool for a successful FetchResult: a
no-content message when the extracted content is empty (falsy), otherwise
the truncated content wrapped in a source line. -/
def handleFetchToolText (url content : String) : String :=
  if content = "" then
    "Successfully fetched content from " ++ url ++
      ", but no text content was extracted."
  else
    "Content from " ++ url ++ ":\n\n" ++ truncateFetchContent content

/-! ## WebSearcher (src/searcher/WebSearcher.ts)

Three pieces of the searcher are embedded.

The result extraction performed inside page.evaluate is modelled on
candidate data: for each element matched by a result selector, the DOM
lookup of a title link and a snippet is external, so a candidate carries
the trimmed title text, the raw href of the title link, and the trimmed
snippet text; the URL normalization and the validity filter (lines
229-254) are embedded exactly. The outer selector loop accumulates into
one list and stops at the first selector whose elements yield at least one
valid result.

The captcha branch (lines 89-101) is modelled as the action the source
takes: abort in headless mode, otherwise a page.waitForFunction call whose
predicate is the constant-true arrow function and whose timeout is 10000
milliseconds; the action a wait performs is recorded by whether its
predicate tests captcha disappearance and by its timeout.

The lazy browser initialization (initBrowser, lines 24-36) is modelled as
an interleaved transition system: a caller's check step atomically tests
the browser field and, when it is unset, begins a launch; its finish step
completes a begun launch and assigns the browser field, which is what the
await boundary between the test and the assignment allows other callers to
observe. -/

/-- SearchResult: title, url, snippet and an optional icon. -/
structure SearchResult where
  title : String
  url : String
  snippet : String
  icon : Option String
  deriving DecidableEq, Repr

/-- Candidate data of one matched result element: the trimmed text of the
found title link (empty when its text was empty or missing), the href of
the title link, and the trimmed snippet text. -/
structure Candidate where
  title : String
  href : String
  snippet : String
  deriving DecidableEq, Repr

/-- Relative-URL normalization of the extraction (lines 230-236):
protocol-relative hrefs get the https scheme, root-relative hrefs get the
engine origin, and an http scheme is upgraded to https. -/
def normalizeResultUrl (u : String) : String :=
  if jsStartsWith u "//" then "https:" ++ u
  else if jsStartsWith u "/" then "https://duckduckgo.com" ++ u
  else if jsStartsWith u "http://" then "https://" ++ ⟨u.data.drop 7⟩
  else u

/-- Validity filter of the extraction (lines 239-246): non-empty title and
url, no internal redirect or tracking endpoint, no javascript
pseudo-scheme, and the url starts with http. -/
def keepResult (title url : String) : Bool :=
  title != "" && url != "" &&
  !(jsIncludes url "duckduckgo.com/y.js") &&
  !(jsIncludes url "duckduckgo.com/l/?uddg=") &&
  !(jsIncludes url "javascript:") &&
  jsStartsWith url "http"

/-- Processing of one candidate element (lines 223-254): normalize the
href and keep the entry when it passes the validity filter, with an empty
icon. -/
def processCandidate (c : Candidate) : Option SearchResult :=
  let url := normalizeResultUrl c.href
  if keepResult c.title url then some ⟨c.title, url, c.snippet, some ""⟩
  else none

/-- Results contributed by the elements of one selector. -/
def extractResults (cs : List Candidate) : List SearchResult :=
  cs.filterMap processCandidate

/-- The selector loop of the extraction (lines 171-259): each selector's
matched elements are given as a candidate list; selectors matching no
element are skipped, and the loop stops at the first selector whose
elements yield at least one valid result. -/
def extractAll : List (List Candidate) → List SearchResult
  | [] => []
  | cs :: rest =>
    if cs.isEmpty then extractAll rest
    else if (extractResults cs).isEmpty then extractAll rest
    else extractResults cs

/-- Action the search takes at the captcha check. A waitThen action
records whether the performed wait's predicate tests disappearance of the
captcha element and the wait's timeout in milliseconds, then the search
continues. -/
inductive CaptchaBehavior where
  | proceed
  | abortEmptyResults
  | waitThen (waitsForCaptchaGone : Bool) (timeoutMs : Nat)
  deriving DecidableEq, Repr

/-- Captcha branch of search (lines 89-101): with a captcha element
present, headless mode returns the empty result list; otherwise the source
calls page.waitForFunction with the constant-true arrow function and a
10000 millisecond timeout and then continues. -/
def captchaHandling (captchaPresent headless : Bool) : CaptchaBehavior :=
  if captchaPresent then
    if headless then .abortEmptyResults
    else .waitThen false 10000
  else .proceed

/-- Program counter of one caller running initBrowser. -/
inductive InitPc where
  | start
  | launching
  | done
  deriving DecidableEq, Repr

/-- State of the shared lazy initialization: whether the browser field is
set, how many launches have been invoked, and each caller's position. -/
structure InitState where
  browser : Bool
  launches : Nat
  pcs : List InitPc
  deriving DecidableEq, Repr

/-- Fresh WebSearcher with n pending callers. -/
def initStateFresh (n : Nat) : InitState :=
  ⟨false, 0, List.replicate n .start⟩

/-- Scheduler events: caller i runs its browser test (beginning a launch
when the field is unset), or caller i's in-flight launch resolves and
assigns the field. -/
inductive InitStep where
  | check (i : Nat)
  | finish (i : Nat)
  deriving DecidableEq, Repr

/-- One transition of the initialization system. -/
def initStep (s : InitState) : InitStep → InitState
  | .check i =>
    match s.pcs.get? i with
    | some .start =>
      if s.browser then { s with pcs := s.pcs.set i .done }
      else { s with pcs := s.pcs.set i .launching, launches := s.launches + 1 }
    | _ => s
  | .finish i =>
    match s.pcs.get? i with
    | some .launching =>
      { s with browser := true, pcs := s.pcs.set i .done }
    | _ => s

/-- Run a schedule of initialization events. -/
def initRun (s : InitState) (sched : List InitStep) : InitState :=
  sched.foldl initStep s

/-- Schedule in which the n callers run strictly one after another. -/
def seqSchedule (n : Nat) : List InitStep :=
  (List.range n).flatMap (fun i => [.check i, .finish i])

/-- A parsed document with no metadata and no content, used to instantiate
the external-parser parameter in concrete evaluations. -/
def docStub : Doc :=
  ⟨"", none, none, none, none, none, none, none, none, ""⟩

/-! ## Theorems -/

/-- C1: acquire follows the fixed-window algorithm. For a limiter with
positive limit and interval: when the elapsed time since the window start
reaches the interval, the counter is reset and the call resolves without
delay as the first request of a window starting now; when the window is
current and the count is below the limit, the count is incremented and the
call resolves without delay, the window start moving to now exactly when
this is the first request of the fresh window; otherwise the call suspends
for the remainder of the interval and then unconditionally resumes with
one granted request and the window started at the resumption time. -/
theorem rateLimiter_acquire_fixed_window (st : RateLimiter) (now nowAfter : Int)
    (hlim : 0 < st.limit) (hint : 0 < st.interval) :
    (st.interval ≤ now - st.lastRequestTime →
      st.acquire now nowAfter = (none, ⟨1, st.limit, st.interval, now⟩)) ∧
    (now - st.lastRequestTime < st.interval →
      (st.requests < st.limit →
        st.acquire now nowAfter =
          (none, ⟨st.requests + 1, st.limit, st.interval,
            if st.requests = 0 then now else st.lastRequestTime⟩)) ∧
      (st.limit ≤ st.requests →
        st.acquire now nowAfter =
          (some (st.interval - (now - st.lastRequestTime)),
            ⟨1, st.limit, st.interval, nowAfter⟩))) := by
  refine ⟨fun h => ?_, fun h => ⟨fun h2 => ?_, fun h2 => ?_⟩⟩
  · simp only [RateLimiter.acquire, if_pos h]
    rw [if_pos hlim]
    simp
  · simp only [RateLimiter.acquire, if_neg (not_le.mpr h)]
    rw [if_pos h2]
    rcases eq_or_ne st.requests 0 with h0 | h0
    · simp [h0]
    · have : st.requests + 1 ≠ 1 := by
        intro hc
        exact h0 (by omega)
      simp [this, h0]
  · simp only [RateLimiter.acquire, if_neg (not_le.mpr h)]
    rw [if_neg (not_lt.mpr h2)]

/-- Witness for C1: a fresh limiter with limit 1 and interval 5 grants a
request at time 10 without delay and starts the window there. -/
theorem rateLimiter_acquire_fixed_window_witness :
    RateLimiter.acquire ⟨0, 1, 5, 0⟩ 10 12 = (none, ⟨1, 1, 5, 10⟩) := by
  have h := rateLimiter_acquire_fixed_window ⟨0, 1, 5, 0⟩ 10 12 (by decide) (by decide)
  exact h.1 (by decide)

/-- C3: fetch validates before performing any side effect. An empty or
whitespace-only url yields the URL-cannot-be-empty failure and a url the
standard parser rejects yields the invalid-format failure, in both cases
with zero rate-limiter acquisitions and zero HTTP client invocations. -/
theorem fetch_validates_before_side_effects
    (parses : String → Bool) (client : Except String JsVal)
    (parse : String → Doc) (url : String) :
    (jsTrimS url = "" →
      WebContentFetcher.fetch parses client parse url =
        ⟨⟨false, none, some "URL cannot be empty"⟩, 0, 0⟩) ∧
    (jsTrimS url ≠ "" → parses url = false →
      WebContentFetcher.fetch parses client parse url =
        ⟨⟨false, none, some "Invalid URL format"⟩, 0, 0⟩) := by
  constructor
  · intro h
    simp [WebContentFetcher.fetch, h]
  · intro h hp
    have hu : url ≠ "" := by
      intro he
      subst he
      exact h rfl
    simp [WebContentFetcher.fetch, hu, h, hp]

/-- Witness for C3: a whitespace-only url and a url the parser rejects
each fail without touching the rate limiter or the HTTP client. -/
theorem fetch_validates_before_side_effects_witness :
    WebContentFetcher.fetch (fun _ => false) (.ok (.vStr "x")) (fun _ => docStub) "   " =
      ⟨⟨false, none, some "URL cannot be empty"⟩, 0, 0⟩ ∧
    WebContentFetcher.fetch (fun _ => false) (.ok (.vStr "x")) (fun _ => docStub) "not-a-url" =
      ⟨⟨false, none, some "Invalid URL format"⟩, 0, 0⟩ :=
  ⟨(fetch_validates_before_side_effects (fun _ => false) (.ok (.vStr "x"))
      (fun _ => docStub) "   ").1 (by decide),
   (fetch_validates_before_side_effects (fun _ => false) (.ok (.vStr "x"))
      (fun _ => docStub) "not-a-url").2 (by decide) rfl⟩

/-- C4: for a syntactically valid url, a falsy or non-string HTTP response
(null, undefined, a number, the empty string) yields the
no-content-received failure, while a whitespace-only but non-empty string
response is treated as valid content and yields a successful result whose
data is the scraped WebContent. -/
theorem fetch_no_content_received
    (parses : String → Bool) (parse : String → Doc) (url : String) (n : Int)
    (hu : jsTrimS url ≠ "") (hp : parses url = true) :
    WebContentFetcher.fetch parses (.ok .vNull) parse url =
      ⟨⟨false, none, some "Failed to fetch content: No content received"⟩, 1, 1⟩ ∧
    WebContentFetcher.fetch parses (.ok .vUndefined) parse url =
      ⟨⟨false, none, some "Failed to fetch content: No content received"⟩, 1, 1⟩ ∧
    WebContentFetcher.fetch parses (.ok (.vNum n)) parse url =
      ⟨⟨false, none, some "Failed to fetch content: No content received"⟩, 1, 1⟩ ∧
    WebContentFetcher.fetch parses (.ok (.vStr "")) parse url =
      ⟨⟨false, none, some "Failed to fetch content: No content received"⟩, 1, 1⟩ ∧
    (∀ s : String, s ≠ "" →
      WebContentFetcher.fetch parses (.ok (.vStr s)) parse url =
        ⟨⟨true, some (scrapeWebPage (parse s) (some "") true true), none⟩, 1, 1⟩) := by
  have hne : url ≠ "" := by
    intro he
    subst he
    exact hu rfl
  refine ⟨?_, ?_, ?_, ?_, fun s hs => ?_⟩ <;>
    simp [WebContentFetcher.fetch, WebContentFetcher.parseContent, hne, hu, hp, *]

/-- Witness for C4: with a parser accepting the url, a null response fails
with the no-content message and a single-space response succeeds. -/
theorem fetch_no_content_received_witness :
    WebContentFetcher.fetch (fun _ => true) (.ok .vNull) (fun _ => docStub) "https://e.com" =
      ⟨⟨false, none, some "Failed to fetch content: No content received"⟩, 1, 1⟩ ∧
    WebContentFetcher.fetch (fun _ => true) (.ok (.vStr " ")) (fun _ => docStub) "https://e.com" =
      ⟨⟨true, some (scrapeWebPage docStub (some "") true true), none⟩, 1, 1⟩ :=
  ⟨(fetch_no_content_received (fun _ => true) (fun _ => docStub) "https://e.com" 0
      (by decide) rfl).1,
   (fetch_no_content_received (fun _ => true) (fun _ => docStub) "https://e.com" 0
      (by decide) rfl).2.2.2.2 " " (by decide)⟩

/-- C9: the fetch tool returns the extracted content: content of at most
10000 characters passes through the truncation unmodified, while longer
content is cut to its first 10000 characters (a prefix of that exact
length) with the truncation notice appended; non-empty content is wrapped
unchanged into the response text around the truncation. -/
theorem mcp_fetch_tool_truncation (url content : String) :
    (content ≠ "" →
      handleFetchToolText url content =
        "Content from " ++ url ++ ":\n\n" ++ truncateFetchContent content) ∧
    (content.length ≤ 10000 → truncateFetchContent content = content) ∧
    (10000 < content.length →
      truncateFetchContent content =
        content.take 10000 ++
          "...\n\n[Content truncated - showing first 10000 characters]" ∧
      (content.take 10000).length = 10000 ∧
      (content.take 10000).data <+: content.data) := by
  refine ⟨fun h => ?_, fun h => ?_, fun h => ⟨?_, ?_, ?_⟩⟩
  · simp [handleFetchToolText, h]
  · simp [truncateFetchContent, not_lt.mpr h]
  · unfold truncateFetchContent
    rw [if_pos h]
  · rw [String.take_eq]
    show (content.data.take 10000).length = 10000
    rw [List.length_take]
    have h2 : content.data.length = content.length := rfl
    omega
  · rw [String.take_eq]
    exact List.take_prefix 10000 content.data

/-- Witness for C9: short content is returned unmodified inside the
wrapper. -/
theorem mcp_fetch_tool_truncation_witness :
    handleFetchToolText "https://e.com" "hello" =
      "Content from https://e.com:\n\nhello" := by
  have h := mcp_fetch_tool_truncation "https://e.com" "hello"
  rw [h.1 (by decide), h.2.1 (by decide)]
  rfl

/-- Helper: a search result produced from a candidate passed the validity
filter on its own title and url. -/
theorem keepResult_of_mem_extractResults (cs : List Candidate) (r : SearchResult)
    (h : r ∈ extractResults cs) : keepResult r.title r.url = true := by
  unfold extractResults at h
  rw [List.mem_filterMap] at h
  obtain ⟨c, _, hc⟩ := h
  unfold processCandidate at hc
  by_cases hk : keepResult c.title (normalizeResultUrl c.href) = true
  · rw [if_pos hk] at hc
    obtain rfl : (⟨c.title, normalizeResultUrl c.href, c.snippet, some ""⟩ : SearchResult) = r :=
      Option.some_injective _ hc
    exact hk
  · rw [if_neg hk] at hc
    exact absurd hc (by simp)

/-- Helper: every member of the selector loop's output is a member of some
selector's extracted results. -/
theorem mem_extractResults_of_mem_extractAll (lists : List (List Candidate))
    (r : SearchResult) (hr : r ∈ extractAll lists) :
    ∃ cs, r ∈ extractResults cs := by
  induction lists with
  | nil => simp [extractAll] at hr
  | cons cs rest ih =>
    unfold extractAll at hr
    by_cases h1 : cs.isEmpty
    · rw [if_pos h1] at hr
      exact ih hr
    · rw [if_neg h1] at hr
      by_cases h2 : (extractResults cs).isEmpty
      · rw [if_pos h2] at hr
        exact ih hr
      · rw [if_neg h2] at hr
        exact ⟨cs, hr⟩

/-- C2 counterexample: an anchor whose href is the string httpx://evil
survives normalization and the validity filter unchanged, so the search
extraction returns a result whose url does not begin with an http or https
scheme, refuting the claimed invariant as stated. -/
theorem search_url_scheme_counterexample :
    extractAll [[⟨"t", "httpx://evil", "s"⟩]] =
      [⟨"t", "httpx://evil", "s", some ""⟩] ∧
    ¬ ((jsStartsWith "httpx://evil" "http://") = true ∨
       (jsStartsWith "httpx://evil" "https://") = true) := by
  constructor
  · rfl
  · decide

/-- C2 amended: every result returned by the extraction has a non-empty
url that starts with the string http (though not necessarily a full http
or https scheme), and entries whose normalized URL targets the engine's
redirect or tracking endpoints, contains a javascript pseudo-scheme, or
does not start with http are discarded and never included. -/
theorem search_results_url_filter (lists : List (List Candidate))
    (r : SearchResult) (hr : r ∈ extractAll lists) :
    r.url ≠ "" ∧ jsStartsWith r.url "http" = true ∧
    jsIncludes r.url "duckduckgo.com/y.js" = false ∧
    jsIncludes r.url "duckduckgo.com/l/?uddg=" = false ∧
    jsIncludes r.url "javascript:" = false := by
  obtain ⟨cs, hmem⟩ := mem_extractResults_of_mem_extractAll lists r hr
  have hk := keepResult_of_mem_extractResults cs r hmem
  unfold keepResult at hk
  simp only [Bool.and_eq_true, bne_iff_ne, ne_eq, Bool.not_eq_true'] at hk
  exact ⟨hk.1.1.1.1.2, hk.2, hk.1.1.1.2, hk.1.1.2, hk.1.2⟩

/-- Witness for C2 amended: a regular https result is returned and
satisfies every clause of the filter invariant. -/
theorem search_results_url_filter_witness :
    ("https://example.com/" : String) ≠ "" ∧
    (jsStartsWith "https://example.com/" "http") = true ∧
    jsIncludes "https://example.com/" "duckduckgo.com/y.js" = false ∧
    jsIncludes "https://example.com/" "duckduckgo.com/l/?uddg=" = false ∧
    jsIncludes "https://example.com/" "javascript:" = false :=
  search_results_url_filter [[⟨"t", "https://example.com/", "s"⟩]]
    ⟨"t", "https://example.com/", "s", some ""⟩ (by decide)

/-- C6 counterexample: in non-headless mode with a captcha present, the
code performs a wait whose predicate is the constant-true function with a
10000 millisecond timeout, not a wait of up to 60 seconds for the captcha
element to disappear, refuting the claimed non-headless behavior. -/
theorem searcher_captcha_wait_counterexample :
    captchaHandling true false = CaptchaBehavior.waitThen false 10000 ∧
    captchaHandling true false ≠ CaptchaBehavior.waitThen true 60000 := by
  decide

/-- C6 amended: with a captcha element present, a headless searcher aborts
and returns the empty result list; a non-headless searcher performs a wait
whose condition is a constant-true function with a 10 second timeout (so
it does not wait for the captcha to disappear and completes immediately)
and then continues; without a captcha the search proceeds. -/
theorem searcher_captcha_handling :
    captchaHandling true true = CaptchaBehavior.abortEmptyResults ∧
    captchaHandling true false = CaptchaBehavior.waitThen false 10000 ∧
    (∀ h : Bool, captchaHandling false h = CaptchaBehavior.proceed) := by
  refine ⟨rfl, rfl, fun h => rfl⟩

/-- Helper: once the browser field is set, any initialization event leaves
it set and invokes no further launch. -/
theorem initStep_browser_set (s : InitState) (e : InitStep) (hb : s.browser = true) :
    (initStep s e).browser = true ∧ (initStep s e).launches = s.launches := by
  cases e with
  | check i =>
    unfold initStep
    cases hg : s.pcs[i]? with
    | none => simp [hg, hb]
    | some pc =>
      cases pc with
      | start => simp [hg, hb]
      | launching => simp [hg, hb]
      | done => simp [hg, hb]
  | finish i =>
    unfold initStep
    cases hg : s.pcs[i]? with
    | none => simp [hg, hb]
    | some pc =>
      cases pc with
      | start => simp [hg, hb]
      | launching => simp [hg, hb]
      | done => simp [hg, hb]

/-- Helper: a schedule run from a state whose browser field is set keeps
it set and invokes no launch. -/
theorem initRun_browser_set (sched : List InitStep) :
    ∀ s : InitState, s.browser = true →
      (initRun s sched).browser = true ∧ (initRun s sched).launches = s.launches := by
  induction sched with
  | nil => exact fun s hb => ⟨hb, rfl⟩
  | cons e es ih =>
    intro s hb
    have h1 := initStep_browser_set s e hb
    have h2 := ih (initStep s e) h1.1
    exact ⟨h2.1, h2.2.trans h1.2⟩

/-- C7 counterexample: two concurrent search callers on a fresh searcher,
each running its browser test before either launch resolves, both observe
an unset browser and both launch: the run completes with two launch
invocations, refuting at most one browser launch per instance. -/
theorem searcher_init_double_launch_counterexample :
    initRun (initStateFresh 2) [.check 0, .check 1, .finish 0, .finish 1] =
      ⟨true, 2, [.done, .done]⟩ ∧
    ¬ (initRun (initStateFresh 2)
        [.check 0, .check 1, .finish 0, .finish 1]).launches ≤ 1 := by
  decide

/-- C7 amended: initBrowser has no in-flight-promise guard, so overlapping
initializations can each launch a browser; what does hold is that callers
whose initializations do not overlap share one launch: under the
serialized schedule, any number of callers on a fresh searcher results in
at most one browser-launch invocation. -/
theorem searcher_init_sequential_single_launch (n : Nat) :
    (initRun (initStateFresh n) (seqSchedule n)).launches ≤ 1 := by
  cases n with
  | zero => exact Nat.zero_le 1
  | succ m =>
    have hsched : seqSchedule (m + 1) =
        [InitStep.check 0, InitStep.finish 0] ++
          ((List.range m).map Nat.succ).flatMap
            (fun i => [InitStep.check i, InitStep.finish i]) := by
      unfold seqSchedule
      rw [List.range_succ_eq_map]
      rfl
    have hs2 : initRun (initStateFresh (m + 1)) [InitStep.check 0, InitStep.finish 0] =
        ⟨true, 1, InitPc.done :: List.replicate m InitPc.start⟩ := by
      show initRun ⟨false, 0, List.replicate (m + 1) InitPc.start⟩ _ = _
      rw [List.replicate_succ]
      rfl
    rw [hsched]
    unfold initRun
    rw [List.foldl_append]
    have h2 := initRun_browser_set
      (((List.range m).map Nat.succ).flatMap (fun i => [InitStep.check i, InitStep.finish i]))
      ⟨true, 1, InitPc.done :: List.replicate m InitPc.start⟩ rfl
    unfold initRun at h2 hs2
    rw [hs2, h2.2]

/-! Helper lemmas for the whitespace normalization. -/

theorem hasTripleNl_cons_ne (c : Char) (l : List Char) (hc : c ≠ '\n') :
    hasTripleNl (c :: l) = hasTripleNl l := by
  cases l with
  | nil => simp [hasTripleNl, hc]
  | cons c2 l2 =>
    cases l2 with
    | nil => simp [hasTripleNl, hc]
    | cons c3 l3 => simp [hasTripleNl, hc]

theorem collapseNlRuns_cons_ne (k : Nat) (c : Char) (l : List Char) (hc : c ≠ '\n') :
    collapseNlRuns k (c :: l) = c :: collapseNlRuns 0 l := by
  simp [collapseNlRuns, hc]

theorem splitNl_no_nl (l : List Char) : ∀ p ∈ splitNl l, '\n' ∉ p := by
  induction l with
  | nil =>
    intro p hp
    simp [splitNl] at hp
    simp [hp]
  | cons c cs ih =>
    intro p hp
    by_cases hc : c = '\n'
    · rw [splitNl, if_pos hc] at hp
      rcases List.mem_cons.mp hp with h | h
      · simp [h]
      · exact ih p h
    · rw [splitNl, if_neg hc] at hp
      rcases hsp : splitNl cs with _ | ⟨q, qs⟩
      · rw [hsp] at hp
        rcases List.mem_cons.mp hp with h | h
        · subst h
          simp [Ne.symm hc]
        · simp at h
      · rw [hsp] at hp
        rcases List.mem_cons.mp hp with h | h
        · subst h
          intro hmem
          rcases List.mem_cons.mp hmem with h2 | h2
          · exact hc h2.symm
          · exact ih q (hsp ▸ List.mem_cons_self q qs) h2
        · exact ih p (hsp ▸ List.mem_cons_of_mem q h)

theorem jsTrimL_subset (p : List Char) : ∀ x ∈ jsTrimL p, x ∈ p := by
  intro x hx
  unfold jsTrimL at hx
  rw [List.mem_reverse] at hx
  have h1 := (List.dropWhile_sublist (l := (p.dropWhile isJsWhitespace).reverse)
    (p := isJsWhitespace)).mem hx
  rw [List.mem_reverse] at h1
  exact (List.dropWhile_sublist (l := p) (p := isJsWhitespace)).mem h1

theorem collapseNlRuns_piece (p : List Char) (hp : p ≠ []) (hnl : '\n' ∉ p) :
    ∀ k r, collapseNlRuns k (p ++ r) = p ++ collapseNlRuns 0 r := by
  induction p with
  | nil => exact absurd rfl hp
  | cons c p2 ih =>
    intro k r
    have hc : c ≠ '\n' := by
      intro h
      exact hnl (h ▸ List.mem_cons_self c p2)
    have hnl2 : '\n' ∉ p2 := fun h => hnl (List.mem_cons_of_mem c h)
    rw [List.cons_append, collapseNlRuns_cons_ne _ _ _ hc]
    cases p2 with
    | nil => simp
    | cons c2 p3 =>
      rw [ih (by simp) hnl2 0 r]
      simp

theorem hasTripleNl_append_no_nl (p r : List Char) (hp : '\n' ∉ p) :
    hasTripleNl (p ++ r) = hasTripleNl r := by
  induction p with
  | nil => rfl
  | cons c p2 ih =>
    have hc : c ≠ '\n' := fun hh => hp (hh ▸ List.mem_cons_self c p2)
    rw [List.cons_append, hasTripleNl_cons_ne _ _ hc]
    exact ih (fun hh => hp (List.mem_cons_of_mem c hh))

theorem hasTripleNl_two_nl (c : Char) (t : List Char) (hc : c ≠ '\n') :
    hasTripleNl ('\n' :: '\n' :: c :: t) = hasTripleNl (c :: t) := by
  simp [hasTripleNl, hc]

theorem joinLinesNlNl_cons_exposed (c : Char) (q2 : List Char) (ps : List (List Char)) :
    ∃ t, joinLinesNlNl ((c :: q2) :: ps) = c :: t := by
  cases ps with
  | nil => exact ⟨q2, rfl⟩
  | cons r rs => exact ⟨q2 ++ '\n' :: '\n' :: joinLinesNlNl (r :: rs), rfl⟩

theorem joinLinesNlNl_no_triple (ps : List (List Char))
    (h : ∀ p ∈ ps, p ≠ [] ∧ '\n' ∉ p) :
    hasTripleNl (joinLinesNlNl ps) = false := by
  induction ps with
  | nil => rfl
  | cons p ps ih =>
    have hp := h p (List.mem_cons_self p ps)
    have hrest : ∀ x ∈ ps, x ≠ [] ∧ '\n' ∉ x :=
      fun x hx => h x (List.mem_cons_of_mem p hx)
    cases ps with
    | nil =>
      show hasTripleNl p = false
      have h2 := hasTripleNl_append_no_nl p [] hp.2
      rw [List.append_nil] at h2
      rw [h2]
      rfl
    | cons q ps2 =>
      have hq := hrest q (List.mem_cons_self q ps2)
      show hasTripleNl (p ++ '\n' :: '\n' :: joinLinesNlNl (q :: ps2)) = false
      rw [hasTripleNl_append_no_nl p _ hp.2]
      obtain ⟨c, q2, rfl⟩ : ∃ c q2, q = c :: q2 := by
        cases q with
        | nil => exact absurd rfl hq.1
        | cons c q2 => exact ⟨c, q2, rfl⟩
      have hc : c ≠ '\n' := fun hh => hq.2 (hh ▸ List.mem_cons_self c q2)
      obtain ⟨t, ht⟩ := joinLinesNlNl_cons_exposed c q2 ps2
      rw [ht, hasTripleNl_two_nl c t hc, ← ht]
      exact ih hrest

theorem collapseNlRuns_joinLines (ps : List (List Char))
    (h : ∀ p ∈ ps, p ≠ [] ∧ '\n' ∉ p) :
    ∀ k, collapseNlRuns k (joinLinesNlNl ps) = joinLinesNlNl ps := by
  induction ps with
  | nil => intro k; rfl
  | cons p ps ih =>
    intro k
    have hp := h p (List.mem_cons_self p ps)
    have hrest : ∀ x ∈ ps, x ≠ [] ∧ '\n' ∉ x :=
      fun x hx => h x (List.mem_cons_of_mem p hx)
    cases ps with
    | nil =>
      show collapseNlRuns k p = p
      have h2 := collapseNlRuns_piece p hp.1 hp.2 k []
      rw [List.append_nil] at h2
      rw [show collapseNlRuns 0 ([] : List Char) = [] from rfl, List.append_nil] at h2
      rw [h2]
    | cons q ps2 =>
      have hq := hrest q (List.mem_cons_self q ps2)
      show collapseNlRuns k (p ++ '\n' :: '\n' :: joinLinesNlNl (q :: ps2)) =
        p ++ '\n' :: '\n' :: joinLinesNlNl (q :: ps2)
      rw [collapseNlRuns_piece p hp.1 hp.2 k _]
      have h1 : collapseNlRuns 0 ('\n' :: '\n' :: joinLinesNlNl (q :: ps2)) =
          '\n' :: '\n' :: collapseNlRuns 2 (joinLinesNlNl (q :: ps2)) := by
        simp [collapseNlRuns]
      rw [h1, ih hrest 2]

/-- C8: with cleanWhitespace enabled, the normalization equals splitting
into lines, trimming each line, dropping empty lines and rejoining with
double newlines (the final collapse of newline runs finding nothing left
to collapse), the normalized text contains no run of three or more
consecutive newlines, and the scrape pipeline applies exactly this
normalization to the converted Markdown. -/
theorem scrape_clean_whitespace (s : String) (d : Doc) (url : Option String) :
    cleanMarkdownWhitespace s =
      ⟨joinLinesNlNl (((splitNl s.data).map jsTrimL).filter (fun l => l ≠ []))⟩ ∧
    hasTripleNl (cleanMarkdownWhitespace s).data = false ∧
    (scrapeWebPage d url false true).content =
      cleanMarkdownWhitespace d.contentMarkdown := by
  have hgood : ∀ p ∈ ((splitNl s.data).map jsTrimL).filter (fun l => l ≠ []),
      p ≠ [] ∧ '\n' ∉ p := by
    intro p hp
    rw [List.mem_filter] at hp
    obtain ⟨hmem, hne⟩ := hp
    refine ⟨by simpa using hne, ?_⟩
    rw [List.mem_map] at hmem
    obtain ⟨orig, horig, rfl⟩ := hmem
    intro hmem2
    exact splitNl_no_nl s.data orig horig (jsTrimL_subset orig _ hmem2)
  have heq : cleanMarkdownWhitespace s =
      ⟨joinLinesNlNl (((splitNl s.data).map jsTrimL).filter (fun l => l ≠ []))⟩ :=
    congrArg String.mk (collapseNlRuns_joinLines _ hgood 0)
  refine ⟨heq, ?_, rfl⟩
  rw [heq]
  exact joinLinesNlNl_no_triple _ hgood

/-- C5: with includeMetadata enabled, scrapeWebPage extracts metadata with
the fixed precedence: title prefers the title element text over og:title,
description prefers the description meta over og:description, url prefers
the caller-supplied argument over og:url, author prefers the author meta
over article:author, and publishDate prefers article:published_time over
the first time element's datetime attribute -- in each case the fallback
is used exactly when the preferred value is missing or empty. -/
theorem scrape_metadata_precedence (url : Option String) (d : Doc) (cw : Bool) :
    (scrapeWebPage d url true cw).metadata = some (extractMetadata url d) ∧
    (d.titleText ≠ "" → (extractMetadata url d).title = some d.titleText) ∧
    (d.titleText = "" → (extractMetadata url d).title = d.ogTitle) ∧
    (jsTruthyO d.descriptionMeta = true →
      (extractMetadata url d).description = d.descriptionMeta) ∧
    (jsTruthyO d.descriptionMeta = false →
      (extractMetadata url d).description = d.ogDescription) ∧
    (jsTruthyO url = true → (extractMetadata url d).url = url) ∧
    (jsTruthyO url = false → (extractMetadata url d).url = d.ogUrl) ∧
    (jsTruthyO d.authorMeta = true → (extractMetadata url d).author = d.authorMeta) ∧
    (jsTruthyO d.authorMeta = false →
      (extractMetadata url d).author = d.articleAuthor) ∧
    (jsTruthyO d.publishedTime = true →
      (extractMetadata url d).publishDate = d.publishedTime) ∧
    (jsTruthyO d.publishedTime = false →
      (extractMetadata url d).publishDate = d.timeDatetime) := by
  refine ⟨rfl, ?_, ?_, ?_, ?_, ?_, ?_, ?_, ?_, ?_, ?_⟩ <;> intro h <;>
    simp [extractMetadata, jsOrSO, jsOrOO, h]

/-- Witness for C5: on a page with a title element, og duplicates, no
description meta, no author meta fallback in play and only a time element
for the date, each field resolves per the precedence. -/
theorem scrape_metadata_precedence_witness :
    (extractMetadata none
      ⟨"T", some "OT", none, some "OD", some "OU", some "A", some "AA",
        none, some "TD", "md"⟩).title = some "T" ∧
    (extractMetadata none
      ⟨"T", some "OT", none, some "OD", some "OU", some "A", some "AA",
        none, some "TD", "md"⟩).description = some "OD" ∧
    (extractMetadata none
      ⟨"T", some "OT", none, some "OD", some "OU", some "A", some "AA",
        none, some "TD", "md"⟩).url = some "OU" ∧
    (extractMetadata none
      ⟨"T", some "OT", none, some "OD", some "OU", some "A", some "AA",
        none, some "TD", "md"⟩).author = some "A" ∧
    (extractMetadata none
      ⟨"T", some "OT", none, some "OD", some "OU", some "A", some "AA",
        none, some "TD", "md"⟩).publishDate = some "TD" :=
  ⟨(scrape_metadata_precedence none _ true).2.1 (by decide),
   (scrape_metadata_precedence none _ true).2.2.2.2.1 (by decide),
   (scrape_metadata_precedence none _ true).2.2.2.2.2.2.1 (by decide),
   (scrape_metadata_precedence none _ true).2.2.2.2.2.2.2.1 (by decide),
   (scrape_metadata_precedence none _ true).2.2.2.2.2.2.2.2.2.2 (by decide)⟩

/-- C10: the fetch pipeline passes the empty string as the url argument of
the scrape step, so for every requested url the metadata url field of a
successful fetch equals the page's og:url query outcome: the content
attribute when the tag is present and absent otherwise, never derived from
the requested url. -/
theorem fetch_scrape_url_argument_empty
    (parses : String → Bool) (parse : String → Doc) (url s : String)
    (hu : jsTrimS url ≠ "") (hp : parses url = true) (hs : s ≠ "") :
    (WebContentFetcher.fetch parses (.ok (.vStr s)) parse url).result.data =
      some (scrapeWebPage (parse s) (some "") true true) ∧
    ((WebContentFetcher.fetch parses (.ok (.vStr s)) parse url).result.data.bind
        WebContent.metadata).map Metadata.url = some (parse s).ogUrl := by
  have hne : url ≠ "" := by
    intro he
    subst he
    exact hu rfl
  constructor
  · simp [WebContentFetcher.fetch, WebContentFetcher.parseContent, hne, hu, hp, hs]
  · simp [WebContentFetcher.fetch, WebContentFetcher.parseContent, hne, hu, hp, hs,
      scrapeWebPage, extractMetadata, jsOrOO, jsTruthyO]

/-- Witness for C10: fetching a page whose og:url is a fixed address under
a different requested url yields that og:url as the metadata url. -/
theorem fetch_scrape_url_argument_empty_witness :
    ((WebContentFetcher.fetch (fun _ => true) (.ok (.vStr "x"))
        (fun _ => ⟨"", none, none, none, some "https://og.example", none, none,
          none, none, ""⟩) "https://requested.example/").result.data.bind
      WebContent.metadata).map Metadata.url = some (some "https://og.example") :=
  (fetch_scrape_url_argument_empty (fun _ => true)
    (fun _ => ⟨"", none, none, none, some "https://og.example", none, none,
      none, none, ""⟩) "https://requested.example/" "x"
    (by decide) rfl (by decide)).2
